import Mathlib

set_option allowUnsafeReducibility true

attribute [semireducible] Rat.mul Rat.div Rat.inv Rat.add Rat.sub Rat.neg

/-!
Shallow embedding of the transaction watch engine in `src/main.py`
(multi-chain incoming-transfer notifier with a persistent dedup /
confirmation-tracking state).

Modelling conventions:
  * Python dicts keyed by strings become total functions `String → Option α`.
  * Timestamps are `Int` (unix seconds), money amounts and prices are `ℚ`.
  * `send_message` calls are modelled as emitted `Event` values: each step
    function returns the new state together with the list of events it
    dispatched, in program order.
  * Globals read from the environment (`MIN_USD_THRESHOLD`, `SEEN_TTL_HOURS`,
    `BTC_ONLY_LATEST`, `DROP_BTC_BACKLOG`, `BTC_CONFIRM_UPDATE`) are gathered
    into a `Config` record; `time.time()` becomes an explicit `now` argument.
  * `save_state` is an external side effect with no influence on the in-memory
    state and is not modelled.
-/

namespace Watch

/-- String-keyed map, the embedding of a Python dict (iteration order is
irrelevant to every property considered here). -/
def StrMap (α : Type) : Type := String → Option α

/-- Pointwise update `m[k] = v` of a dict. -/
def StrMap.set {α : Type} (m : StrMap α) (k : String) (v : α) : StrMap α :=
  fun k' => if k' = k then some v else m k'

/-- `main.py` line 111: one `btc_seen` entry
`{"first_ts":int,"last_ts":int,"notified":bool,"confirmed":bool}`. -/
structure BtcRec where
  first_ts : Int
  last_ts : Int
  notified : Bool
  confirmed : Bool
deriving Repr, DecidableEq

/-- The configuration globals of `main.py` lines 27-33 that the state machine
reads: `MIN_USD_THRESHOLD`, `SEEN_TTL_HOURS * 3600`, `BTC_ONLY_LATEST`,
`DROP_BTC_BACKLOG`, `BTC_CONFIRM_UPDATE`. -/
structure Config where
  minUsd : ℚ
  seenTtl : Int
  btcOnlyLatest : Bool
  dropBtcBacklog : Bool
  btcConfirmUpdate : Bool
deriving Repr

/-- The persistent `STATE` dict, `main.py` line 112:
`{"eth_last":{}, "tron_last":{}, "btc_seen":{}, "updated_at": ...}`. -/
structure St where
  eth_last : StrMap String
  tron_last : StrMap String
  btc_seen : StrMap BtcRec
  updated_at : Int

/-- The `_state_default()` state (empty maps), `main.py` line 110-112. -/
def emptySt : St :=
  { eth_last := fun _ => none, tron_last := fun _ => none,
    btc_seen := fun _ => none, updated_at := 0 }

/-- `prune_state` (`main.py` lines 140-151): drop every `btc_seen` record whose
`last_ts` is below `now - SEEN_TTL_HOURS*3600`, then stamp `updated_at`. -/
def prune_state (cfg : Config) (now : Int) (s : St) : St :=
  let cutoff := now - cfg.seenTtl
  { s with
    btc_seen := fun k =>
      match s.btc_seen k with
      | some r => if cutoff ≤ r.last_ts then some r else none
      | none => none,
    updated_at := now }

/-- `mark_eth` (`main.py` lines 153-156): record the latest ETH tx hash for an
address, then prune.  Python truthiness: an empty hash string is a no-op. -/
def mark_eth (cfg : Config) (now : Int) (addr txhash : String) (s : St) : St :=
  if txhash = "" then s
  else prune_state cfg now { s with eth_last := StrMap.set s.eth_last addr txhash }

/-- `seen_eth` (`main.py` lines 158-159): the stored last hash equals this one. -/
def seen_eth (addr txhash : String) (s : St) : Bool :=
  s.eth_last addr = some txhash

/-- `mark_tron` (`main.py` lines 161-164). -/
def mark_tron (cfg : Config) (now : Int) (addr txid : String) (s : St) : St :=
  if txid = "" then s
  else prune_state cfg now { s with tron_last := StrMap.set s.tron_last addr txid }

/-- `seen_tron` (`main.py` lines 166-167). -/
def seen_tron (addr txid : String) (s : St) : Bool :=
  s.tron_last addr = some txid

/-- `_btc_key` (`main.py` line 169): `f"{addr}:{txid}"`. -/
def btcKey (addr txid : String) : String := addr ++ ":" ++ txid

/-- `get_btc_rec` (`main.py` lines 171-172). -/
def get_btc_rec (addr txid : String) (s : St) : Option BtcRec :=
  s.btc_seen (btcKey addr txid)

/-- `int(ts or time.time())` of `main.py` line 176: a missing or zero (falsy)
timestamp defaults to the current time. -/
def tsOr (ts : Option Int) (now : Int) : Int :=
  match ts with
  | some t => if t = 0 then now else t
  | none => now

/-- Record computation of `mark_btc` (`main.py` lines 176-183): start from the
stored record or a fresh default; `ts` refreshes `last_ts` (a fresh record
always carries `first_ts`, so the `setdefault` on line 179 is a no-op for it);
`notified` / `confirmed` overwrite their fields only when not `None`. -/
def mark_btc_rec (now : Int) (ts : Option Int) (notified confirmed : Option Bool)
    (old : Option BtcRec) : BtcRec :=
  let r0 : BtcRec :=
    match old with
    | some r => r
    | none =>
      { first_ts := tsOr ts now, last_ts := tsOr ts now,
        notified := false, confirmed := false }
  let r1 : BtcRec :=
    match ts with
    | some t => { r0 with last_ts := t }
    | none => r0
  let r2 : BtcRec :=
    match notified with
    | some b => { r1 with notified := b }
    | none => r1
  match confirmed with
  | some b => { r2 with confirmed := b }
  | none => r2

/-- `mark_btc` (`main.py` lines 174-185): create-or-update the record at
`addr:txid`, then prune. -/
def mark_btc (cfg : Config) (now : Int) (addr txid : String) (ts : Option Int)
    (notified confirmed : Option Bool) (s : St) : St :=
  let key := btcKey addr txid
  prune_state cfg now
    { s with
      btc_seen :=
        StrMap.set s.btc_seen key (mark_btc_rec now ts notified confirmed (s.btc_seen key)) }

/-- `seen_btc` (`main.py` lines 187-188). -/
def seen_btc (addr txid : String) (s : St) : Bool :=
  (get_btc_rec addr txid s).isSome

/-! ### Normalized fetch results -/

/-- The ETH tx consumed by the main loop (`main.py` lines 355-376): hash,
raw wei value, timestamp `_ts`. -/
structure EthTx where
  hash : String
  value_wei : Int
  ts : Int
deriving Repr, DecidableEq

/-- The normalized BTC tx dict built by the providers (`main.py`
lines 247-248, 256-258): hash, decimal BTC amount, confirmed flag, time. -/
structure BtcTx where
  hash : String
  amount : ℚ
  confirmed : Bool
  time : Int
deriving Repr, DecidableEq

/-- The TRC20 tx consumed by the main loop (`main.py` lines 454-479):
transaction id, token decimals, raw integer value, timestamp. -/
structure TronTx where
  transaction_id : String
  decimals : Nat
  raw_val : Int
  ts : Int
deriving Repr, DecidableEq

/-- One `send_message` call, abstracted to its kind and identifying data. -/
inductive Event where
  | ethIncoming (addr txhash : String)
  | btcIncoming (addr txid : String)
  | btcConfirmed (addr txid : String)
  | tronIncoming (addr txid : String)
deriving Repr, DecidableEq

/-! ### Per-result processing, one branch of the fan-in loop each -/

/-- ETH branch of the main loop (`main.py` lines 355-376): skip `None`
results and already-seen hashes; notify iff `usd >= MIN_USD_THRESHOLD` with
`usd = value/1e18 * eth_price`; always `mark_eth` afterwards. -/
def ethStep (cfg : Config) (now : Int) (ethPrice : ℚ) (addr : String)
    (result : Option EthTx) (s : St) : St × List Event :=
  match result with
  | none => (s, [])
  | some tx =>
    if seen_eth addr tx.hash s then (s, [])
    else
      let usd : ℚ := (tx.value_wei : ℚ) / 10 ^ 18 * ethPrice
      let evs : List Event :=
        if cfg.minUsd ≤ usd then [Event.ethIncoming addr tx.hash] else []
      (mark_eth cfg now addr tx.hash s, evs)

/-- Initial-alert section of the BTC branch in only-latest mode (`main.py`
lines 383-403): if no record exists for the newest tx or its record is not yet
`notified`, notify iff `usd >= MIN_USD_THRESHOLD`, then mark it
`notified=True, confirmed=tx.confirmed`. -/
def btcInitial (cfg : Config) (now : Int) (btcPrice : ℚ) (addr : String)
    (newest : BtcTx) (s : St) : St × List Event :=
  let skip : Bool :=
    match get_btc_rec addr newest.hash s with
    | some r => r.notified
    | none => false
  if skip then (s, [])
  else
    let usd : ℚ := newest.amount * btcPrice
    let evs : List Event :=
      if cfg.minUsd ≤ usd then [Event.btcIncoming addr newest.hash] else []
    (mark_btc cfg now addr newest.hash (some newest.time) (some true)
      (some newest.confirmed) s, evs)

/-- Backlog section (`main.py` lines 405-408): mark every older entry
`notified=False, confirmed=tx.confirmed` without notifying. -/
def btcBacklog (cfg : Config) (now : Int) (addr : String)
    (olds : List BtcTx) (s : St) : St :=
  olds.foldl
    (fun st t =>
      mark_btc cfg now addr t.hash (some t.time) (some false) (some t.confirmed) st)
    s

/-- One iteration of the notify-all loop (`main.py` lines 411-431). -/
def btcNotifyAllStep (cfg : Config) (now : Int) (btcPrice : ℚ) (addr : String)
    (acc : St × List Event) (t : BtcTx) : St × List Event :=
  let skip : Bool :=
    match get_btc_rec addr t.hash acc.1 with
    | some r => r.notified
    | none => false
  if skip then acc
  else
    let usd : ℚ := t.amount * btcPrice
    let evs : List Event :=
      if cfg.minUsd ≤ usd then [Event.btcIncoming addr t.hash] else []
    (mark_btc cfg now addr t.hash (some t.time) (some true) (some t.confirmed) acc.1,
     acc.2 ++ evs)

/-- Notify-all mode of the BTC branch (`main.py` lines 410-431). -/
def btcNotifyAll (cfg : Config) (now : Int) (btcPrice : ℚ) (addr : String)
    (txs : List BtcTx) (s : St) : St × List Event :=
  txs.foldl (btcNotifyAllStep cfg now btcPrice addr) (s, [])

/-- One iteration of the confirmation-update loop (`main.py` lines 435-452):
an existing record with `notified` and not `confirmed`, re-observed as
confirmed, gets a confirmation notification and `mark_btc(..., confirmed=True)`
(the `notified` argument is omitted, i.e. `None`). -/
def btcConfirmStep (cfg : Config) (now : Int) (addr : String)
    (acc : St × List Event) (t : BtcTx) : St × List Event :=
  match get_btc_rec addr t.hash acc.1 with
  | none => acc
  | some r =>
    if r.notified && !r.confirmed && t.confirmed then
      (mark_btc cfg now addr t.hash (some t.time) none (some true) acc.1,
       acc.2 ++ [Event.btcConfirmed addr t.hash])
    else acc

/-- Confirmation-update section (`main.py` lines 434-452): scan `txs[:5]`. -/
def btcConfirmPhase (cfg : Config) (now : Int) (addr : String)
    (txs : List BtcTx) (s : St) : St × List Event :=
  (txs.take 5).foldl (btcConfirmStep cfg now addr) (s, [])

/-- Whole BTC branch of the main loop (`main.py` lines 378-452): empty fetch
results are skipped; otherwise initial alert (only-latest or notify-all),
backlog absorption, then confirmation updates. -/
def btcStep (cfg : Config) (now : Int) (btcPrice : ℚ) (addr : String)
    (txs : List BtcTx) (s : St) : St × List Event :=
  match txs with
  | [] => (s, [])
  | newest :: rest =>
    let p1 : St × List Event :=
      if cfg.btcOnlyLatest then
        let pa := btcInitial cfg now btcPrice addr newest s
        let sb :=
          if cfg.dropBtcBacklog && !rest.isEmpty then btcBacklog cfg now addr rest pa.1
          else pa.1
        (sb, pa.2)
      else btcNotifyAll cfg now btcPrice addr (newest :: rest) s
    let p2 : St × List Event :=
      if cfg.btcConfirmUpdate then btcConfirmPhase cfg now addr (newest :: rest) p1.1
      else (p1.1, [])
    (p2.1, p1.2 ++ p2.2)

/-- TRON branch of the main loop (`main.py` lines 454-479): skip `None` and
seen txids; notify iff the decimal-normalized token value is positive (no USD
threshold on this path); always `mark_tron` afterwards. -/
def tronStep (cfg : Config) (now : Int) (addr : String)
    (result : Option TronTx) (s : St) : St × List Event :=
  match result with
  | none => (s, [])
  | some tx =>
    if seen_tron addr tx.transaction_id s then (s, [])
    else
      let val : ℚ := (tx.raw_val : ℚ) / 10 ^ tx.decimals
      let evs : List Event :=
        if 0 < val then [Event.tronIncoming addr tx.transaction_id] else []
      (mark_tron cfg now addr tx.transaction_id s, evs)

/-! ### Fan-in of one tick -/

/-- A successfully returned fetch result of one worker. -/
inductive FetchResult where
  | ethR (r : Option EthTx)
  | btcR (txs : List BtcTx)
  | tronR (r : Option TronTx)
deriving Repr

/-- A completed future paired with its originating tag (`main.py` line 348);
`Except.error` is a future whose `f.result()` raised (`main.py` lines 349-353). -/
structure Tagged where
  addr : String
  result : Except Unit FetchResult

/-- Dispatch of one completed future (`main.py` lines 347-479): a raised
future is logged and skipped with no state change. -/
def resultStep (cfg : Config) (now : Int) (ethPrice btcPrice : ℚ) (s : St)
    (t : Tagged) : St × List Event :=
  match t.result with
  | Except.error _ => (s, [])
  | Except.ok (FetchResult.ethR r) => ethStep cfg now ethPrice t.addr r s
  | Except.ok (FetchResult.btcR txs) => btcStep cfg now btcPrice t.addr txs s
  | Except.ok (FetchResult.tronR r) => tronStep cfg now t.addr r s

/-- Fan-in loop of one tick (`main.py` lines 347-479) over the completed
futures in completion order, accumulating dispatched events. -/
def processResults (cfg : Config) (now : Int) (ethPrice btcPrice : ℚ)
    (rs : List Tagged) (s : St) : St × List Event :=
  rs.foldl
    (fun acc t =>
      let p := resultStep cfg now ethPrice btcPrice acc.1 t
      (p.1, acc.2 ++ p.2))
    (s, [])

/-- BTC part of `bootstrap_mark_latest` (`main.py` lines 318-322): mark the
newest fetched tx `notified=False, confirmed=tx.confirmed`; no notification is
dispatched (the function sends nothing). -/
def bootstrap_mark_latest_btc (cfg : Config) (now : Int) (addr : String)
    (txs : List BtcTx) (s : St) : St :=
  match txs with
  | [] => s
  | latest :: _ =>
    mark_btc cfg now addr latest.hash (some latest.time) (some false)
      (some latest.confirmed) s

/-- `get_price` (`main.py` lines 92-107) with the HTTP fetch abstracted to an
outcome parameter (`some p` = successful fetch of price `p`, `none` = raised):
serve a cache entry younger than the TTL; otherwise on success store and
return the fetched price, on failure fall back to
`_price_cache.get(symbol, (0.0, 0))[0]`. -/
def get_price (cache : StrMap (ℚ × Int)) (now ttl : Int) (symbol : String)
    (fetchOutcome : Option ℚ) : ℚ × StrMap (ℚ × Int) :=
  let fresh : Bool :=
    match cache symbol with
    | some pr => decide (now - pr.2 < ttl)
    | none => false
  if fresh then (((cache symbol).getD (0, 0)).1, cache)
  else
    match fetchOutcome with
    | some p => (p, StrMap.set cache symbol (p, now))
    | none => (((cache symbol).getD (0, 0)).1, cache)

/-- Default configuration from `main.py` lines 27-33:
`MIN_USD_THRESHOLD=2`, `SEEN_TTL_HOURS=168` (604800 s), all toggles on. -/
def cfg0 : Config :=
  { minUsd := 2, seenTtl := 604800, btcOnlyLatest := true,
    dropBtcBacklog := true, btcConfirmUpdate := true }

/-! ### Concrete scenario inputs used by the witnesses and counterexamples -/

/-- A watched BTC address. -/
def addr0 : String := "bc1qaddr"

/-- Transfer `A`, observed unconfirmed (1 BTC at time 1000). -/
def txA0 : BtcTx := { hash := "A", amount := 1, confirmed := false, time := 1000 }

/-- Transfer `A`, observed confirmed. -/
def txA1 : BtcTx := { hash := "A", amount := 1, confirmed := true, time := 1000 }

/-- A second transfer `B` for the same address. -/
def txB : BtcTx := { hash := "B", amount := 1, confirmed := false, time := 1000 }

/-- A third transfer `C` for the same address. -/
def txC : BtcTx := { hash := "C", amount := 1, confirmed := false, time := 1000 }

/-- State after a first BTC tick whose fetch returned `[B, A(confirmed)]`:
`B` is notified, `A` is absorbed as backlog with `confirmed=true`. -/
def c1s1 : St := (btcStep cfg0 1000 10000 addr0 [txB, txA1] emptySt).1

/-- State after a second tick returning `[C, A(unconfirmed)]` (a reorg
re-observation of `A`): the backlog pass re-marks `A` from the provider. -/
def c1s2 : St := (btcStep cfg0 1000 10000 addr0 [txC, txA0] c1s1).1

/-- ETH transfer `0xA` (1 ETH). -/
def etxA : EthTx := { hash := "0xA", value_wei := 10 ^ 18, ts := 1000 }

/-- ETH transfer `0xB` (1 ETH). -/
def etxB : EthTx := { hash := "0xB", value_wei := 10 ^ 18, ts := 1001 }

/-- Three consecutive ETH ticks observing `0xA`, then `0xB`, then `0xA` again. -/
def c2p1 : St × List Event := ethStep cfg0 1000 2000 "eaddr" (some etxA) emptySt

/-- Second ETH tick of the `A, B, A` sequence. -/
def c2p2 : St × List Event := ethStep cfg0 1001 2000 "eaddr" (some etxB) c2p1.1

/-- Third ETH tick of the `A, B, A` sequence. -/
def c2p3 : St × List Event := ethStep cfg0 1002 2000 "eaddr" (some etxA) c2p2.1

/-- A transfer observed at time 999, strictly before the spec scenario's
global cutoff 1000 (`spec.md` §8). -/
def oldTx : BtcTx := { hash := "OLD", amount := 1, confirmed := true, time := 999 }

/-- One BTC tick at `now = 1000` that fetched only the stale transfer. -/
def c3p : St × List Event := btcStep cfg0 1000 10000 addr0 [oldTx] emptySt

/-- A TRC20 transfer of 1 raw unit with 6 decimals, i.e. 0.000001 tokens. -/
def ttx : TronTx := { transaction_id := "T1", decimals := 6, raw_val := 1, ts := 1000 }

/-- State right after the BTC bootstrap absorbed the pre-existing latest
transfer `A`. -/
def c5s0 : St := bootstrap_mark_latest_btc cfg0 1000 addr0 [txA1] emptySt

/-- First tick after bootstrap, re-observing the same newest transfer `A`. -/
def c5p1 : St × List Event := btcStep cfg0 1005 10000 addr0 [txA1] c5s0

/-- C6 sequence, tick 1: `A` arrives unconfirmed and is notified. -/
def c6s1 : St := (btcStep cfg0 1000 10000 addr0 [txA0] emptySt).1

/-- C6 tick 2: `A` re-observed confirmed, first confirmation update. -/
def c6p2 : St × List Event := btcStep cfg0 1001 10000 addr0 [txA1] c6s1

/-- C6 tick 3: new transfer `B` with `A` re-observed unconfirmed (reorg) in the
backlog, which resets `A` to `notified=false, confirmed=false`. -/
def c6p3 : St × List Event := btcStep cfg0 1002 10000 addr0 [txB, txA0] c6p2.1

/-- C6 tick 4: `A` again newest and unconfirmed, re-notified as new-incoming. -/
def c6p4 : St × List Event := btcStep cfg0 1003 10000 addr0 [txA0] c6p3.1

/-- C6 tick 5: `A` re-observed confirmed, second confirmation update. -/
def c6p5 : St × List Event := btcStep cfg0 1004 10000 addr0 [txA1] c6p4.1

/-- All events of the five-tick C6 sequence, in order. -/
def c6events : List Event :=
  (btcStep cfg0 1000 10000 addr0 [txA0] emptySt).2 ++ c6p2.2 ++ c6p3.2 ++ c6p4.2 ++ c6p5.2

/-- C8 tick 1: price 0 (cache empty, fetch failed), `A` arrives unconfirmed. -/
def c8p1 : St × List Event := btcStep cfg0 1000 0 addr0 [txA0] emptySt

/-- C8 tick 2: still price 0, `A` re-observed confirmed. -/
def c8p2 : St × List Event := btcStep cfg0 1001 0 addr0 [txA1] c8p1.1

/-- A stored record that is already notified and confirmed. -/
def recNC : BtcRec := { first_ts := 900, last_ts := 900, notified := true, confirmed := true }

/-- A state holding `recNC` for transfer `A` at `addr0`. -/
def stNC : St := { emptySt with btc_seen := StrMap.set emptySt.btc_seen (btcKey addr0 "A") recNC }

/-! ### Helper lemmas -/

/-- Reading back the key just written to a dict. -/
theorem StrMap.set_same {α : Type} (m : StrMap α) (k : String) (v : α) :
    StrMap.set m k v k = some v := by
  simp [StrMap.set]

/-- Reading a different key after a dict write. -/
theorem StrMap.set_diff {α : Type} (m : StrMap α) (k k' : String) (v : α)
    (h : k' ≠ k) : StrMap.set m k v k' = m k' := by
  simp [StrMap.set, h]

/-- What `prune_state` leaves at each key. -/
theorem prune_state_lookup (cfg : Config) (now : Int) (s : St) (k : String) :
    (prune_state cfg now s).btc_seen k
      = match s.btc_seen k with
        | some r => if now - cfg.seenTtl ≤ r.last_ts then some r else none
        | none => none := rfl

/-- `prune_state` does not touch the ETH map. -/
theorem prune_state_eth (cfg : Config) (now : Int) (s : St) :
    (prune_state cfg now s).eth_last = s.eth_last := rfl

/-- What `mark_btc` leaves at each key: the freshly computed record at the
written key, everything else untouched, both then filtered by the prune. -/
theorem mark_btc_lookup (cfg : Config) (now : Int) (addr txid : String)
    (ts : Option Int) (n c : Option Bool) (s : St) (k : String) :
    (mark_btc cfg now addr txid ts n c s).btc_seen k
      = (match (if k = btcKey addr txid
                then some (mark_btc_rec now ts n c (s.btc_seen (btcKey addr txid)))
                else s.btc_seen k) with
         | some r => if now - cfg.seenTtl ≤ r.last_ts then some r else none
         | none => none) := by
  by_cases h : k = btcKey addr txid <;>
    simp [mark_btc, prune_state, StrMap.set, h]

/-- The record computed by `mark_btc` with `confirmed=True` is confirmed. -/
theorem mark_btc_rec_confirmed_true (now : Int) (ts : Option Int)
    (n : Option Bool) (old : Option BtcRec) :
    (mark_btc_rec now ts n (some true) old).confirmed = true := by
  cases old <;> cases ts <;> cases n <;> rfl

/-! ### C7 -/

/-- C7: after `prune_state` with retention window `seenTtl` at time `now`,
every remaining `btc_seen` record satisfies `now - last_ts ≤ seenTtl`, every
record it removed satisfied `now - last_ts > seenTtl` strictly, and each of
the three mutating state operations (`mark_btc`, `mark_eth`, `mark_tron`)
ends in a `prune_state` of its updated state. -/
theorem C7_theorem :
    (∀ (cfg : Config) (now : Int) (s : St) (k : String) (r : BtcRec),
        (prune_state cfg now s).btc_seen k = some r →
        s.btc_seen k = some r ∧ now - r.last_ts ≤ cfg.seenTtl)
    ∧ (∀ (cfg : Config) (now : Int) (s : St) (k : String) (r : BtcRec),
        s.btc_seen k = some r → (prune_state cfg now s).btc_seen k = none →
        cfg.seenTtl < now - r.last_ts)
    ∧ (∀ (cfg : Config) (now : Int) (addr txid : String) (ts : Option Int)
        (n c : Option Bool) (s : St), ∃ s',
        mark_btc cfg now addr txid ts n c s = prune_state cfg now s')
    ∧ (∀ (cfg : Config) (now : Int) (addr h : String) (s : St), h ≠ "" →
        ∃ s', mark_eth cfg now addr h s = prune_state cfg now s')
    ∧ (∀ (cfg : Config) (now : Int) (addr i : String) (s : St), i ≠ "" →
        ∃ s', mark_tron cfg now addr i s = prune_state cfg now s') := by
  refine ⟨?_, ?_, ?_, ?_, ?_⟩
  · intro cfg now s k r h
    rw [prune_state_lookup] at h
    revert h
    cases hs : s.btc_seen k with
    | none => intro h; cases h
    | some r0 =>
      intro h
      by_cases hc : now - cfg.seenTtl ≤ r0.last_ts
      · simp [hc] at h
        subst h
        exact ⟨rfl, by omega⟩
      · simp [hc] at h
  · intro cfg now s k r h hnone
    rw [prune_state_lookup, h] at hnone
    by_cases hc : now - cfg.seenTtl ≤ r.last_ts
    · simp [hc] at hnone
    · omega
  · intro cfg now addr txid ts n c s
    exact ⟨_, rfl⟩
  · intro cfg now addr h s hne
    exact ⟨{ s with eth_last := StrMap.set s.eth_last addr h }, by simp [mark_eth, hne]⟩
  · intro cfg now addr i s hne
    exact ⟨{ s with tron_last := StrMap.set s.tron_last addr i }, by simp [mark_tron, hne]⟩

/-- Witness for C7 at a concrete input: in `stNC` pruned at `now = 1000` with
the default window, the record for `A` remains and is within the window. -/
theorem C7_witness :
    stNC.btc_seen (btcKey addr0 "A") = some recNC ∧ 1000 - recNC.last_ts ≤ cfg0.seenTtl :=
  C7_theorem.1 cfg0 1000 stNC (btcKey addr0 "A") recNC (by decide)

/-! ### C9 -/

/-- C9: a failed fetch task is isolated: processing a tick whose completed
futures contain a raised future for address `a` mutates no state and emits
exactly what the same tick without that future does; and each in-fetch
exception path (`None` ETH/TRON result, empty BTC list) is a no-op. -/
theorem C9_theorem (cfg : Config) (now : Int) (ep bp : ℚ)
    (xs ys : List Tagged) (a : String) (s : St) :
    processResults cfg now ep bp (xs ++ { addr := a, result := Except.error () } :: ys) s
      = processResults cfg now ep bp (xs ++ ys) s
    ∧ (∀ (addr : String) (s' : St), ethStep cfg now ep addr none s' = (s', []))
    ∧ (∀ (addr : String) (s' : St), btcStep cfg now bp addr [] s' = (s', []))
    ∧ (∀ (addr : String) (s' : St), tronStep cfg now addr none s' = (s', [])) := by
  refine ⟨?_, fun _ _ => rfl, fun _ _ => rfl, fun _ _ => rfl⟩
  unfold processResults
  rw [List.foldl_append, List.foldl_append, List.foldl_cons]
  congr 1
  show (fun acc t =>
      let p := resultStep cfg now ep bp acc.1 t
      (p.1, acc.2 ++ p.2))
    (List.foldl _ (s, []) xs) { addr := a, result := Except.error () }
    = List.foldl _ (s, []) xs
  simp [resultStep]

/-! ### C10 -/

/-- C10: `mark_btc` on an existing record with `notified=None` (resp.
`confirmed=None`) leaves that field unchanged, never overwrites `first_ts`,
and updates `last_ts` exactly when a timestamp is supplied — provided the
updated record still lies inside the retention window, since `mark_btc` ends
with the prune sweep. -/
theorem C10_theorem (cfg : Config) (now : Int) (addr txid : String)
    (ts : Option Int) (n c : Option Bool) (s : St) (r : BtcRec)
    (hr : s.btc_seen (btcKey addr txid) = some r)
    (hkeep : now - cfg.seenTtl ≤ ts.getD r.last_ts) :
    (mark_btc cfg now addr txid ts n c s).btc_seen (btcKey addr txid)
      = some { first_ts := r.first_ts,
               last_ts := ts.getD r.last_ts,
               notified := n.getD r.notified,
               confirmed := c.getD r.confirmed } := by
  cases ts <;> cases n <;> cases c <;>
    simp_all [mark_btc, mark_btc_rec, prune_state, StrMap.set, hr]

/-- Witness for C10 at a concrete input: updating `A`'s record in `stNC` with
a new timestamp and `notified=None, confirmed=None` keeps both flags and
`first_ts` and refreshes only `last_ts`. -/
theorem C10_witness :
    (mark_btc cfg0 1000 addr0 "A" (some 950) none none stNC).btc_seen (btcKey addr0 "A")
      = some { first_ts := recNC.first_ts, last_ts := 950,
               notified := recNC.notified, confirmed := recNC.confirmed } :=
  C10_theorem cfg0 1000 addr0 "A" (some 950) none none stNC recNC (by decide) (by decide)

/-! ### C1 -/

/-- One confirmation-update iteration keeps every already-confirmed record
confirmed (it only ever writes `confirmed=True`). -/
theorem btcConfirmStep_keeps_confirmed (cfg : Config) (now : Int) (addr : String)
    (t : BtcTx) (acc : St × List Event) (k : String)
    (h : ∀ r, acc.1.btc_seen k = some r → r.confirmed = true) :
    ∀ r, (btcConfirmStep cfg now addr acc t).1.btc_seen k = some r → r.confirmed = true := by
  intro r hr
  unfold btcConfirmStep at hr
  revert hr
  cases hrec : get_btc_rec addr t.hash acc.1 with
  | none => exact h r
  | some rr =>
    by_cases hc : (rr.notified && !rr.confirmed && t.confirmed) = true
    · simp only [hc, if_true]
      intro hr
      rw [mark_btc_lookup] at hr
      by_cases hk : k = btcKey addr t.hash
      · rw [if_pos hk] at hr
        revert hr
        by_cases hkeep : now - cfg.seenTtl
            ≤ (mark_btc_rec now (some t.time) none (some true) (acc.1.btc_seen (btcKey addr t.hash))).last_ts
        · simp only [hkeep, if_true]
          intro hr
          cases hr
          exact mark_btc_rec_confirmed_true _ _ _ _
        · simp only [hkeep, if_false]
          intro hr
          cases hr
      · rw [if_neg hk] at hr
        revert hr
        cases hx : acc.1.btc_seen k with
        | none => intro hr; cases hr
        | some rx =>
          by_cases hkeep : now - cfg.seenTtl ≤ rx.last_ts
          · simp only [hkeep, if_true]
            intro hr
            rw [Option.some_inj] at hr
            subst hr
            exact h rx hx
          · simp only [hkeep, if_false]
            intro hr
            cases hr
    · simp only [hc, if_false]
      exact h r

/-- The whole confirmation-update scan keeps confirmed records confirmed. -/
theorem btcConfirm_foldl_keeps_confirmed (cfg : Config) (now : Int) (addr : String)
    (l : List BtcTx) (acc : St × List Event) (k : String)
    (h : ∀ r, acc.1.btc_seen k = some r → r.confirmed = true) :
    ∀ r, (l.foldl (btcConfirmStep cfg now addr) acc).1.btc_seen k = some r →
      r.confirmed = true := by
  induction l generalizing acc with
  | nil => exact h
  | cons t l ih =>
    intro r hr
    exact ih (btcConfirmStep cfg now addr acc t)
      (btcConfirmStep_keeps_confirmed cfg now addr t acc k h) r hr

/-- C1 (amended): the confirmation-update section of a tick preserves
monotonic confirmation — a record that is `confirmed=true` before the scan can
only stay confirmed or be pruned, never revert to `confirmed=false`.  (The
full per-tick claim fails: `C1_counterexample` shows the backlog pass
rewriting a confirmed record back to unconfirmed on a reorg observation.) -/
theorem C1_theorem (cfg : Config) (now : Int) (addr : String) (txs : List BtcTx)
    (s : St) (k : String) (r r' : BtcRec)
    (h : s.btc_seen k = some r) (hc : r.confirmed = true)
    (h' : (btcConfirmPhase cfg now addr txs s).1.btc_seen k = some r') :
    r'.confirmed = true := by
  refine btcConfirm_foldl_keeps_confirmed cfg now addr (txs.take 5) (s, []) k ?_ r' h'
  intro r0 h0
  rw [h] at h0
  cases h0
  exact hc

/-- Witness for C1 at a concrete input: the confirmed record for `A` in
`stNC` is still confirmed after a confirmation scan re-observing it. -/
theorem C1_witness : recNC.confirmed = true :=
  C1_theorem cfg0 1000 addr0 [txA1] stNC (btcKey addr0 "A") recNC recNC
    (by decide) (by decide) (by decide)

/-- C1 counterexample: a first tick absorbs transfer `A` as confirmed backlog;
a second tick re-observes `A` unconfirmed (reorg) in its backlog, and the
stored `confirmed` flag transitions true → false. -/
theorem C1_counterexample :
    (get_btc_rec addr0 "A" c1s1).map (fun r => r.confirmed) = some true
    ∧ (get_btc_rec addr0 "A" c1s2).map (fun r => r.confirmed) = some false := by
  decide

/-! ### C2 -/

/-- C2 (amended): an ETH transfer whose hash is still the stored last hash for
its address is never re-notified, and in particular two consecutive
observations of the same transfer notify at most on the first — but only while
no different transfer overwrites the per-address last-hash slot in between
(`C2_counterexample` shows re-notification after an intervening transfer). -/
theorem C2_theorem :
    (∀ (cfg : Config) (now : Int) (p : ℚ) (addr : String) (tx : EthTx) (s : St),
        seen_eth addr tx.hash s = true →
        ethStep cfg now p addr (some tx) s = (s, []))
    ∧ (∀ (cfg : Config) (now now' : Int) (p p' : ℚ) (addr : String) (tx : EthTx) (s : St),
        tx.hash ≠ "" →
        ethStep cfg now' p' addr (some tx) (ethStep cfg now p addr (some tx) s).1
          = ((ethStep cfg now p addr (some tx) s).1, [])) := by
  have h1 : ∀ (cfg : Config) (now : Int) (p : ℚ) (addr : String) (tx : EthTx) (s : St),
      seen_eth addr tx.hash s = true → ethStep cfg now p addr (some tx) s = (s, []) := by
    intro cfg now p addr tx s h
    simp [ethStep, h]
  refine ⟨h1, ?_⟩
  intro cfg now now' p p' addr tx s hne
  by_cases hseen : seen_eth addr tx.hash s = true
  · rw [h1 cfg now p addr tx s hseen]
    exact h1 cfg now' p' addr tx s hseen
  · have hstep : (ethStep cfg now p addr (some tx) s).1 = mark_eth cfg now addr tx.hash s := by
      simp [ethStep, hseen]
    have hseen' : seen_eth addr tx.hash (mark_eth cfg now addr tx.hash s) = true := by
      simp [seen_eth, mark_eth, hne, prune_state, StrMap.set]
    rw [hstep]
    exact h1 cfg now' p' addr tx (mark_eth cfg now addr tx.hash s) hseen'

/-- Witness for C2 at a concrete input: re-observing `0xA` right after the
tick that recorded it dispatches nothing. -/
theorem C2_witness :
    ethStep cfg0 1001 2000 "eaddr" (some etxA) (ethStep cfg0 1000 2000 "eaddr" (some etxA) emptySt).1
      = ((ethStep cfg0 1000 2000 "eaddr" (some etxA) emptySt).1, []) :=
  C2_theorem.2 cfg0 1000 1001 2000 2000 "eaddr" etxA emptySt (by decide)

/-- C2 counterexample: ticks observing `0xA`, then `0xB`, then `0xA` again
(same confirmed status throughout — ETH transfers are always mined) dispatch a
second new-incoming notification for `0xA` at the third tick, because the
intervening transfer overwrote the single last-hash slot. -/
theorem C2_counterexample :
    c2p1.2 = [Event.ethIncoming "eaddr" "0xA"]
    ∧ c2p2.2 = [Event.ethIncoming "eaddr" "0xB"]
    ∧ c2p3.2 = [Event.ethIncoming "eaddr" "0xA"] := by
  decide

/-! ### C3 -/

/-- The confirmation scan over a one-element fetch result, explicitly. -/
theorem btcConfirmPhase_single (cfg : Config) (now : Int) (addr : String)
    (t : BtcTx) (s : St) :
    btcConfirmPhase cfg now addr [t] s
      = match get_btc_rec addr t.hash s with
        | none => (s, [])
        | some r =>
          if r.notified && !r.confirmed && t.confirmed
          then (mark_btc cfg now addr t.hash (some t.time) none (some true) s,
                [Event.btcConfirmed addr t.hash])
          else (s, []) := by
  have htake : ([t] : List BtcTx).take 5 = [t] := rfl
  unfold btcConfirmPhase
  rw [htake]
  show btcConfirmStep cfg now addr (s, []) t = _
  unfold btcConfirmStep
  cases hrec : get_btc_rec addr t.hash s with
  | none => rfl
  | some r =>
    by_cases hc : (r.notified && !r.confirmed && t.confirmed) = true <;> simp [hc]

/-- Looking up the just-marked key in the result of `mark_btc`. -/
theorem get_btc_rec_mark_self (cfg : Config) (now : Int) (addr txid : String)
    (ts : Option Int) (n c : Option Bool) (s : St) :
    get_btc_rec addr txid (mark_btc cfg now addr txid ts n c s)
      = (if now - cfg.seenTtl ≤ (mark_btc_rec now ts n c (s.btc_seen (btcKey addr txid))).last_ts
         then some (mark_btc_rec now ts n c (s.btc_seen (btcKey addr txid)))
         else none) := by
  rw [get_btc_rec, mark_btc_lookup]
  simp

/-- Flag fields of the record written by `mark_btc` with explicit flags. -/
theorem mark_btc_rec_flags (now : Int) (ts : Option Int) (b cb : Bool)
    (old : Option BtcRec) :
    (mark_btc_rec now ts (some b) (some cb) old).notified = b
    ∧ (mark_btc_rec now ts (some b) (some cb) old).confirmed = cb := by
  cases old <;> cases ts <;> exact ⟨rfl, rfl⟩

/-- A one-element BTC tick behaves identically in only-latest and notify-all
mode: skip if the record is already notified, else notify-on-threshold and
mark `notified=True, confirmed=transfer.confirmed`; then the confirmation
scan. -/
theorem btcStep_single (cfg : Config) (now : Int) (p : ℚ) (addr : String)
    (tx : BtcTx) (s : St) :
    btcStep cfg now p addr [tx] s
      = (let skip : Bool := match get_btc_rec addr tx.hash s with
           | some r => r.notified
           | none => false
         let p1 : St × List Event :=
           if skip then (s, [])
           else (mark_btc cfg now addr tx.hash (some tx.time) (some true) (some tx.confirmed) s,
                 if cfg.minUsd ≤ tx.amount * p then [Event.btcIncoming addr tx.hash] else [])
         let p2 : St × List Event :=
           if cfg.btcConfirmUpdate then btcConfirmPhase cfg now addr [tx] p1.1 else (p1.1, [])
         (p2.1, p1.2 ++ p2.2)) := by
  cases hol : cfg.btcOnlyLatest <;>
    simp only [btcStep, btcInitial, btcNotifyAll, btcNotifyAllStep, hol,
      List.foldl_cons, List.foldl_nil, List.isEmpty_nil, Bool.not_true,
      Bool.and_false, Bool.false_eq_true, if_false, if_true, List.nil_append]

/-- The events of a one-element BTC tick do not depend on the transfer's
timestamp: the already-notified case emits at most a confirmation update from
the pre-tick record, and the fresh case emits at most the threshold-gated
new-incoming event (the record it writes carries `confirmed=tx.confirmed`, so
the confirmation scan stays silent on it). -/
theorem btcStep_single_events (cfg : Config) (now : Int) (p : ℚ) (addr : String)
    (tx : BtcTx) (s : St) :
    (btcStep cfg now p addr [tx] s).2
      = (match get_btc_rec addr tx.hash s with
         | some r =>
           if r.notified then
             (if cfg.btcConfirmUpdate && (r.notified && !r.confirmed && tx.confirmed)
              then [Event.btcConfirmed addr tx.hash] else [])
           else
             (if cfg.minUsd ≤ tx.amount * p then [Event.btcIncoming addr tx.hash] else [])
         | none =>
           (if cfg.minUsd ≤ tx.amount * p then [Event.btcIncoming addr tx.hash] else [])) := by
  rw [btcStep_single]
  have hfresh :
      (btcConfirmPhase cfg now addr [tx]
        (mark_btc cfg now addr tx.hash (some tx.time) (some true) (some tx.confirmed) s)).2
        = [] := by
    rw [btcConfirmPhase_single]
    rw [get_btc_rec_mark_self]
    by_cases hkeep : now - cfg.seenTtl
        ≤ (mark_btc_rec now (some tx.time) (some true) (some tx.confirmed)
            (s.btc_seen (btcKey addr tx.hash))).last_ts
    · rw [if_pos hkeep]
      have hfl := mark_btc_rec_flags now (some tx.time) true tx.confirmed
        (s.btc_seen (btcKey addr tx.hash))
      cases htc : tx.confirmed <;> rw [htc] at hfl <;> simp [hfl.1, hfl.2, htc]
    · rw [if_neg hkeep]
  cases hrec : get_btc_rec addr tx.hash s with
  | some r =>
    by_cases hn : r.notified = true
    · cases hcu : cfg.btcConfirmUpdate
      · simp [hrec, hn, hcu]
      · simp only [hrec, hn, if_true, hcu, List.nil_append]
        rw [btcConfirmPhase_single, hrec]
        cases hcf : r.confirmed <;> cases htc : tx.confirmed <;>
          simp [hn, hcf, htc]
    · have hn' : r.notified = false := by
        cases hx : r.notified
        · rfl
        · exact absurd hx hn
      cases hcu : cfg.btcConfirmUpdate
      · simp [hrec, hn', hcu]
      · simp only [hrec, hn', Bool.false_eq_true, if_false, hcu, if_true]
        rw [hfresh]
        simp
  | none =>
    cases hcu : cfg.btcConfirmUpdate
    · simp [hrec, hcu]
    · simp only [hrec, Bool.false_eq_true, if_false, hcu, if_true]
      rw [hfresh]
      simp

/-- C3 (amended): the code contains no cutoff filter — the notifications of a
tick do not depend on the transfer's `observed_at` at all (for a one-element
fetch result the emitted events are identical for any two timestamps); the
only timestamp-based exclusion is the retention prune on stored records
(`C7_theorem`), and `C3_counterexample` shows a transfer observed before the
spec's cutoff being both notified and recorded. -/
theorem C3_theorem (cfg : Config) (now : Int) (p : ℚ) (addr : String)
    (tx : BtcTx) (t1 t2 : Int) (s : St) :
    (btcStep cfg now p addr [{ tx with time := t1 }] s).2
      = (btcStep cfg now p addr [{ tx with time := t2 }] s).2 := by
  rw [btcStep_single_events, btcStep_single_events]

/-- C3 counterexample: with the spec scenario's global cutoff 1000
(`spec.md` §8), the transfer observed at time 999 (strictly before the
cutoff) is nevertheless dispatched as a new-incoming notification and stored
as an observation record by the tick that fetched it. -/
theorem C3_counterexample :
    oldTx.time < 1000
    ∧ c3p.2 = [Event.btcIncoming addr0 "OLD"]
    ∧ (get_btc_rec addr0 "OLD" c3p.1).isSome = true := by
  decide

/-! ### C4 -/

/-- The `last_ts` written by `mark_btc` when a timestamp is supplied. -/
theorem mark_btc_rec_last_ts (now t : Int) (n c : Option Bool) (old : Option BtcRec) :
    (mark_btc_rec now (some t) n c old).last_ts = t := by
  cases old <;> cases n <;> cases c <;> rfl

/-- C4 (amended): the USD threshold gates new-incoming notifications only on
the ETH and BTC paths — there a notification is dispatched iff
`usd ≥ MIN_USD_THRESHOLD` and the transfer is recorded regardless (BTC as
`notified=true`, ETH as the last-hash slot).  The TRON path has no USD
threshold at all: it notifies iff the decimal-normalized token amount is
positive, recording the txid regardless (`C4_counterexample`). -/
theorem C4_theorem :
    (∀ (cfg : Config) (now : Int) (p : ℚ) (addr : String) (tx : EthTx) (s : St),
        seen_eth addr tx.hash s = false → tx.hash ≠ "" →
        ((Event.ethIncoming addr tx.hash ∈ (ethStep cfg now p addr (some tx) s).2
            ↔ cfg.minUsd ≤ (tx.value_wei : ℚ) / 10 ^ 18 * p)
          ∧ (ethStep cfg now p addr (some tx) s).1.eth_last addr = some tx.hash))
    ∧ (∀ (cfg : Config) (now : Int) (p : ℚ) (addr : String) (tx : BtcTx) (s : St),
        (∀ r, get_btc_rec addr tx.hash s = some r → r.notified = false) →
        now - cfg.seenTtl ≤ tx.time →
        ((Event.btcIncoming addr tx.hash ∈ (btcInitial cfg now p addr tx s).2
            ↔ cfg.minUsd ≤ tx.amount * p)
          ∧ (get_btc_rec addr tx.hash (btcInitial cfg now p addr tx s).1).map (fun x => x.notified)
              = some true))
    ∧ (∀ (cfg : Config) (now : Int) (addr : String) (tx : TronTx) (s : St),
        seen_tron addr tx.transaction_id s = false → tx.transaction_id ≠ "" →
        ((Event.tronIncoming addr tx.transaction_id ∈ (tronStep cfg now addr (some tx) s).2
            ↔ 0 < (tx.raw_val : ℚ) / 10 ^ tx.decimals)
          ∧ (tronStep cfg now addr (some tx) s).1.tron_last addr = some tx.transaction_id)) := by
  refine ⟨?_, ?_, ?_⟩
  · intro cfg now p addr tx s hseen hne
    constructor
    · by_cases hc : cfg.minUsd ≤ (tx.value_wei : ℚ) / 10 ^ 18 * p <;>
        simp [ethStep, hseen, hc]
    · simp [ethStep, hseen, mark_eth, hne, prune_state, StrMap.set]
  · intro cfg now p addr tx s hgate hkeep
    have hskip : (match get_btc_rec addr tx.hash s with
        | some r => r.notified
        | none => false) = false := by
      cases hx : get_btc_rec addr tx.hash s with
      | none => rfl
      | some r => exact hgate r hx
    constructor
    · by_cases hc : cfg.minUsd ≤ tx.amount * p <;>
        simp [btcInitial, hskip, hc]
    · simp only [btcInitial, hskip, Bool.false_eq_true, if_false]
      rw [get_btc_rec_mark_self]
      rw [mark_btc_rec_last_ts]
      rw [if_pos hkeep]
      have hfl := mark_btc_rec_flags now (some tx.time) true tx.confirmed
        (s.btc_seen (btcKey addr tx.hash))
      simp [hfl.1]
  · intro cfg now addr tx s hseen hne
    constructor
    · by_cases hc : 0 < (tx.raw_val : ℚ) / 10 ^ tx.decimals <;>
        simp [tronStep, hseen, hc]
    · simp [tronStep, hseen, mark_tron, hne, prune_state, StrMap.set]

/-- Witness for C4 at concrete inputs: one instance per chain path. -/
theorem C4_witness :
    ((Event.ethIncoming "eaddr" "0xA" ∈ (ethStep cfg0 1000 2000 "eaddr" (some etxA) emptySt).2
        ↔ cfg0.minUsd ≤ (etxA.value_wei : ℚ) / 10 ^ 18 * 2000)
      ∧ (ethStep cfg0 1000 2000 "eaddr" (some etxA) emptySt).1.eth_last "eaddr" = some "0xA")
    ∧ ((Event.btcIncoming addr0 "B" ∈ (btcInitial cfg0 1000 10000 addr0 txB emptySt).2
        ↔ cfg0.minUsd ≤ txB.amount * 10000)
      ∧ (get_btc_rec addr0 "B" (btcInitial cfg0 1000 10000 addr0 txB emptySt).1).map (fun x => x.notified)
          = some true)
    ∧ ((Event.tronIncoming "taddr" "T1" ∈ (tronStep cfg0 1000 "taddr" (some ttx) emptySt).2
        ↔ 0 < (ttx.raw_val : ℚ) / 10 ^ ttx.decimals)
      ∧ (tronStep cfg0 1000 "taddr" (some ttx) emptySt).1.tron_last "taddr" = some "T1") :=
  ⟨C4_theorem.1 cfg0 1000 2000 "eaddr" etxA emptySt (by decide) (by decide),
   C4_theorem.2.1 cfg0 1000 10000 addr0 txB emptySt (fun r hx => nomatch hx) (by decide),
   C4_theorem.2.2 cfg0 1000 "taddr" ttx emptySt (by decide) (by decide)⟩

/-- C4 counterexample: a TRC20 transfer of 0.000001 tokens is dispatched as a
new-incoming notification although its USD value at any cached quote price of
1 USD per token is far below the default 2 USD threshold — the TRON path never
consults a USD threshold. -/
theorem C4_counterexample :
    (tronStep cfg0 1000 "taddr" (some ttx) emptySt).2 = [Event.tronIncoming "taddr" "T1"]
    ∧ (ttx.raw_val : ℚ) / 10 ^ ttx.decimals * 1 < cfg0.minUsd := by
  decide

/-! ### C5 -/

/-- Every event appended by the confirmation scan is a `btcConfirmed`. -/
theorem btcConfirm_foldl_events (cfg : Config) (now : Int) (addr : String)
    (l : List BtcTx) (acc : St × List Event) (ev : Event)
    (hev : ev ∈ (l.foldl (btcConfirmStep cfg now addr) acc).2) :
    ev ∈ acc.2 ∨ ∃ a txid, ev = Event.btcConfirmed a txid := by
  induction l generalizing acc with
  | nil => exact Or.inl hev
  | cons t l ih =>
    rcases ih (btcConfirmStep cfg now addr acc t) hev with h1 | h2
    · revert h1
      unfold btcConfirmStep
      cases hr : get_btc_rec addr t.hash acc.1 with
      | none => exact Or.inl
      | some r =>
        by_cases hc : (r.notified && !r.confirmed && t.confirmed) = true
        · simp only [hc, if_true]
          intro h1
          rcases List.mem_append.mp h1 with h | h
          · exact Or.inl h
          · exact Or.inr ⟨addr, t.hash, by simpa using h⟩
        · simp only [hc, if_false]
          exact Or.inl
    · exact Or.inr h2

/-- Every event of the initial-alert section names the newest transfer. -/
theorem btcInitial_events (cfg : Config) (now : Int) (p : ℚ) (addr : String)
    (newest : BtcTx) (s : St) (ev : Event)
    (h : ev ∈ (btcInitial cfg now p addr newest s).2) :
    ev = Event.btcIncoming addr newest.hash := by
  revert h
  unfold btcInitial
  cases hrec : get_btc_rec addr newest.hash s with
  | none =>
    by_cases ht : cfg.minUsd ≤ newest.amount * p <;> simp [ht]
  | some r =>
    cases hn : r.notified <;> by_cases ht : cfg.minUsd ≤ newest.amount * p <;>
      simp [hn, ht]

/-- The events of an only-latest BTC tick split into the initial-alert events
and the confirmation-scan events (the backlog pass emits nothing). -/
theorem btcStep_events_split (cfg : Config) (now : Int) (p : ℚ) (addr : String)
    (newest : BtcTx) (rest : List BtcTx) (s : St)
    (hol : cfg.btcOnlyLatest = true) :
    (btcStep cfg now p addr (newest :: rest) s).2
      = (btcInitial cfg now p addr newest s).2
        ++ (if cfg.btcConfirmUpdate then
              (btcConfirmPhase cfg now addr (newest :: rest)
                (if cfg.dropBtcBacklog && !rest.isEmpty
                 then btcBacklog cfg now addr rest (btcInitial cfg now p addr newest s).1
                 else (btcInitial cfg now p addr newest s).1)).2
            else []) := by
  simp only [btcStep, hol, if_true]
  cases hcu : cfg.btcConfirmUpdate <;> simp

/-- C5 (amended): in only-latest mode a tick's new-incoming notifications can
only name the newest entry of the fetch result — backlog and bootstrap
absorption themselves dispatch nothing (those passes send no message), and a
transfer sitting in the non-newest tail is never notified by that tick.  The
claim's "never on any later tick" part fails: absorbed records carry
`notified=false`, so a later tick that re-observes such a transfer as the
newest entry notifies it (`C5_counterexample`). -/
theorem C5_theorem (cfg : Config) (now : Int) (p : ℚ) (addr a txid : String)
    (newest : BtcTx) (rest : List BtcTx) (s : St)
    (hol : cfg.btcOnlyLatest = true)
    (hmem : Event.btcIncoming a txid ∈ (btcStep cfg now p addr (newest :: rest) s).2) :
    a = addr ∧ txid = newest.hash := by
  rw [btcStep_events_split cfg now p addr newest rest s hol] at hmem
  rcases List.mem_append.mp hmem with h1 | h2
  · have := btcInitial_events cfg now p addr newest s _ h1
    injection this with ha hh
    exact ⟨ha, hh⟩
  · revert h2
    cases hcu : cfg.btcConfirmUpdate
    · intro h2
      simp at h2
    · intro h2
      simp only [if_true] at h2
      rcases btcConfirm_foldl_events cfg now addr _ _ _ h2 with h3 | ⟨a', t', h3⟩
      · simp at h3
      · exact absurd h3 (by simp)

/-- Witness for C5 at a concrete input: the one notification of a tick whose
fetch result is `[B, A]` names the newest transfer `B`, not the backlog
entry `A`. -/
theorem C5_witness : "bc1qaddr" = addr0 ∧ "B" = txB.hash :=
  C5_theorem cfg0 1000 10000 addr0 "bc1qaddr" "B" txB [txA1] emptySt rfl (by decide)

/-- C5 counterexample: bootstrap absorbs the pre-existing latest transfer `A`
with `notified=false` and dispatches nothing, but the very next tick that
re-observes `A` as the newest entry dispatches a new-incoming notification for
it. -/
theorem C5_counterexample :
    (get_btc_rec addr0 "A" c5s0).map (fun r => r.notified) = some false
    ∧ c5p1.2 = [Event.btcIncoming addr0 "A"] := by
  decide

/-! ### C6 -/

/-- C6 (amended): within one tick whose fetch result re-observes a recorded,
already-notified transfer, a confirmation-update notification is dispatched
exactly when the stored record has `confirmed=false` and the observed transfer
has `confirmed=true`, and the stored flag afterwards is the disjunction of the
two — at most one confirmation update per tick.  Across ticks the at-most-once
part of the claim fails: a reorg observation resets the record through the
backlog pass and a second confirmation update can follow
(`C6_counterexample`). -/
theorem C6_theorem (cfg : Config) (now : Int) (p : ℚ) (addr : String)
    (tx : BtcTx) (s : St) (r : BtcRec)
    (hcu : cfg.btcConfirmUpdate = true)
    (hr : get_btc_rec addr tx.hash s = some r) (hn : r.notified = true)
    (hkeep : now - cfg.seenTtl ≤ tx.time) :
    ((btcStep cfg now p addr [tx] s).2
        = if r.confirmed = false ∧ tx.confirmed = true
          then [Event.btcConfirmed addr tx.hash] else [])
    ∧ ((get_btc_rec addr tx.hash (btcStep cfg now p addr [tx] s).1).map (fun x => x.confirmed)
        = some (r.confirmed || tx.confirmed)) := by
  rw [btcStep_single]
  simp only [hr, hn, if_true, hcu, List.nil_append]
  rw [btcConfirmPhase_single, hr]
  cases hcf : r.confirmed <;> cases htc : tx.confirmed <;>
    simp [hn, hcf, htc, hr, get_btc_rec_mark_self, mark_btc_rec_last_ts, hkeep,
      mark_btc_rec_confirmed_true]

/-- Witness for C6 at a concrete input: re-observing the already-confirmed
record of `A` dispatches nothing and keeps the flag. -/
theorem C6_witness :
    ((btcStep cfg0 1000 10000 addr0 [txA1] stNC).2
        = if recNC.confirmed = false ∧ txA1.confirmed = true
          then [Event.btcConfirmed addr0 txA1.hash] else [])
    ∧ ((get_btc_rec addr0 txA1.hash (btcStep cfg0 1000 10000 addr0 [txA1] stNC).1).map
          (fun x => x.confirmed)
        = some (recNC.confirmed || txA1.confirmed)) :=
  C6_theorem cfg0 1000 10000 addr0 txA1 stNC recNC rfl (by decide) (by decide) (by decide)

/-- C6 counterexample: over the five-tick sequence `[A unconf]`, `[A conf]`,
`[B, A unconf]` (reorg), `[A unconf]`, `[A conf]`, the engine dispatches two
confirmation-update notifications for the same `(address, transfer_id)`. -/
theorem C6_counterexample :
    c6events.count (Event.btcConfirmed addr0 "A") = 2 := by
  decide

/-! ### C8 -/

/-- C8 (amended): with no cache entry and a failed fetch, `get_price` returns
0; a price of 0 makes every USD value 0, below any positive threshold, so no
new-incoming notification is dispatched on the ETH and BTC paths and a fresh
BTC transfer is still absorbed as `notified=true`.  The claim's "zero
notifications" fails in full: the confirmation-update path is not
threshold-gated, so a confirmation update can still be dispatched for such a
transfer (`C8_counterexample`). -/
theorem C8_theorem :
    (∀ (now ttl : Int) (sym : String),
        (get_price (fun _ => none) now ttl sym none).1 = 0)
    ∧ (∀ (cfg : Config) (now : Int) (addr : String) (tx : EthTx) (s : St),
        0 < cfg.minUsd → (ethStep cfg now 0 addr (some tx) s).2 = [])
    ∧ (∀ (cfg : Config) (now : Int) (addr : String) (tx : BtcTx) (s : St),
        0 < cfg.minUsd →
        (btcInitial cfg now 0 addr tx s).2 = []
        ∧ ((∀ r, get_btc_rec addr tx.hash s = some r → r.notified = false) →
           now - cfg.seenTtl ≤ tx.time →
           (get_btc_rec addr tx.hash (btcInitial cfg now 0 addr tx s).1).map (fun x => x.notified)
             = some true)) := by
  refine ⟨fun now ttl sym => rfl, ?_, ?_⟩
  · intro cfg now addr tx s hpos
    by_cases hseen : seen_eth addr tx.hash s = true
    · simp [ethStep, hseen]
    · simp [ethStep, hseen, mul_zero, not_le.mpr hpos]
  · intro cfg now addr tx s hpos
    constructor
    · unfold btcInitial
      cases hrec : get_btc_rec addr tx.hash s with
      | none => simp [mul_zero, not_le.mpr hpos]
      | some r => cases hn : r.notified <;> simp [hn, mul_zero, not_le.mpr hpos]
    · intro hgate hkeep
      have hskip : (match get_btc_rec addr tx.hash s with
          | some r => r.notified
          | none => false) = false := by
        cases hx : get_btc_rec addr tx.hash s with
        | none => rfl
        | some r => exact hgate r hx
      simp only [btcInitial, hskip, Bool.false_eq_true, if_false]
      rw [get_btc_rec_mark_self]
      rw [mark_btc_rec_last_ts]
      rw [if_pos hkeep]
      have hfl := mark_btc_rec_flags now (some tx.time) true tx.confirmed
        (s.btc_seen (btcKey addr tx.hash))
      simp [hfl.1]

/-- Witness for C8 at concrete inputs: the empty-cache failed-fetch price is
0, and an un-seen ETH transfer processed at price 0 dispatches nothing. -/
theorem C8_witness :
    (get_price (fun _ => none) 1000 30 "BTCUSDT" none).1 = 0
    ∧ (ethStep cfg0 1000 0 "eaddr" (some etxA) emptySt).2 = [] :=
  ⟨C8_theorem.1 1000 30 "BTCUSDT", C8_theorem.2.1 cfg0 1000 "eaddr" etxA emptySt (by decide)⟩

/-- C8 counterexample: at price 0 the unconfirmed transfer `A` is absorbed
silently as `notified=true`, but when a later tick (still at price 0)
re-observes it confirmed, a confirmation-update notification is dispatched —
not zero notifications for that transfer. -/
theorem C8_counterexample :
    (get_price (fun _ => none) 1000 30 "BTCUSDT" none).1 = 0
    ∧ c8p1.2 = []
    ∧ (get_btc_rec addr0 "A" c8p1.1).map (fun r => r.notified) = some true
    ∧ c8p2.2 = [Event.btcConfirmed addr0 "A"] := by
  decide

end Watch
